import Mathlib

set_option maxRecDepth 100000

/-!
Shallow embedding of the orchestrator core of asyncowfs, translated from
src/trio_owfs/service.py (class Service and its EventWrapper, plus the
shutdown sequence in Service.aexit).

Modelling conventions:
* The mutable Service object becomes an explicit state record `SState`;
  every method becomes a function from state to state, paired with its
  result.  A Python exception is an `Option OwErr` / `Except OwErr`
  outcome; state mutations performed before the raise are kept, exactly
  as in Python.
* Collaborator calls (Server.start, Server.start_scan, the startup
  handoff of Server.scan_now, Device construction, setup_struct) live in
  server.py and device.py, which are not among the sources; their
  outcomes are parameters, following the interface contract of the spec
  (section 6).  In particular, modelled from the spec: a Device stores
  the id it was created with, and the device class has a boolean
  did_setup flag.
* trio.Queue semantics (external library): the queue is a bounded FIFO
  with the capacity given at construction (1000 here); put_nowait on a
  full queue raises trio.WouldBlock and never suspends; put_nowait on a
  queue with room appends.  Service.push_event is a synchronous method,
  so it cannot suspend at all.  The queue class offers empty(), full()
  and qsize(), and has no method named is_empty: an is_empty attribute
  access raises AttributeError.
* The field `trace` is ghost instrumentation: it records every event
  whose push_event call completed without raising, whether the event was
  delivered to an armed queue or silently dropped while unarmed.  It
  exists only so that theorems can speak about which events were ever
  emitted; no operation reads it.
-/

namespace Owfs

/-- A Server collaborator: identity host and port, plus a tag `inst`
standing for Python object identity (each construction is fresh). -/
structure Server where
  host : String
  port : Nat
  inst : Nat
deriving DecidableEq

/-- A Device collaborator: its bus id, plus a tag `inst` standing for
Python object identity.  Modelled from the spec: device.py is not among
the sources; per the spec a Device is created with, and keyed by, its
unique id. -/
structure Device where
  id : Nat
  inst : Nat
deriving DecidableEq

/-- Lifecycle events, from event.py as used by service.py. -/
inductive Event where
  | ServerRegistered (s : Server)
  | ServerDeregistered (s : Server)
  | DeviceAdded (d : Device)
  | DeviceDeleted (d : Device)
deriving DecidableEq

/-- Exceptions that the embedded code can raise.  `wouldBlock` is
trio.WouldBlock (raised by Queue.put_nowait on a full queue),
`assertionError` a failed Python assert, `attributeError` a missing
attribute, `keyError` is raised by set.remove on a missing element,
`cancelled` stands for trio.Cancelled delivered into a task, and
`external c` stands for an arbitrary exception raised by a collaborator
call (the tag keeps distinct collaborator errors distinguishable, so
that re-raising unchanged is expressible). -/
inductive OwErr where
  | wouldBlock
  | assertionError
  | attributeError
  | keyError
  | cancelled
  | external (code : Nat)
deriving DecidableEq

/-- The state of a Service instance.  `servers` is self._servers (a
set, represented as a duplicate-free list), `devices` is self._devices
(dict id to Device, as an association list with distinct keys), `tasks`
is self._tasks (a set of cancel scopes, represented by Nat tags),
`event_queue` is self._event_queue (None when no consumer is armed,
otherwise the queued events), `scan` and `load_structs` are the
constructor arguments, `next_inst` is a freshness counter for object
identities and cancel scopes, `spawned` is ghost: every scope ever
handed out by add_task, and `trace` is the ghost emission history
described in the module docstring. -/
structure SState where
  servers : List Server
  devices : List (Nat × Device)
  tasks : List Nat
  event_queue : Option (List Event)
  scan : Option Int
  load_structs : Bool
  next_inst : Nat
  spawned : List Nat
  trace : List Event
deriving DecidableEq

/-- Python set.add: insert the element unless already present. -/
def setInsert [DecidableEq α] (a : α) (l : List α) : List α :=
  if a ∈ l then l else a :: l

/-- Capacity of the event queue: service.py constructs trio.Queue(1000). -/
def qcap : Nat := 1000

/-- Dict lookup on the device registry. -/
def lookupDev (k : Nat) : List (Nat × Device) → Option Device
  | [] => none
  | (a, d) :: rest => if k = a then some d else lookupDev k rest

/-- Service.push_event: if self._event_queue is not None, put_nowait the
event (raising wouldBlock when the queue is already at capacity);
otherwise silently drop it.  The ghost trace records completed calls. -/
def push_event (st : SState) (e : Event) : SState × Option OwErr :=
  match st.event_queue with
  | none => ({ st with trace := st.trace ++ [e] }, none)
  | some q =>
      if q.length < qcap then
        ({ st with event_queue := some (q ++ [e]), trace := st.trace ++ [e] }, none)
      else
        (st, some OwErr.wouldBlock)

/-- Registry effect of the miss branch of Service.get_device: construct
the Device (fresh identity) and insert it into the dict under its id. -/
def devStep (st : SState) (id : Nat) : SState :=
  { st with devices := (id, (⟨id, st.next_inst⟩ : Device)) :: st.devices,
            next_inst := st.next_inst + 1 }

/-- Service.get_device: return the registered device for this id, or
construct one, insert it into the registry, push DeviceAdded, and
return it.  The dict insert happens before the push, as in the source,
so a raising push leaves the device registered. -/
def get_device (st : SState) (id : Nat) : SState × Except OwErr Device :=
  match lookupDev id st.devices with
  | some d => (st, Except.ok d)
  | none =>
      let dev : Device := ⟨id, st.next_inst⟩
      let p := push_event (devStep st id) (Event.DeviceAdded dev)
      (p.1, match p.2 with
            | some e => Except.error e
            | none => Except.ok dev)

/-- Service.add_server: construct a Server, push ServerRegistered, then
await s.start() (outcome `startR`); on failure push ServerDeregistered
and re-raise; on success add the server to the registry and await
s.start_scan(scan, polling) (outcome `scanR`).  The polling flag is
forwarded verbatim to the collaborator and has no orchestrator-visible
effect, so it is not a parameter here.  The effective scan interval
keeps the source computation: the sentinel -1 selects self.scan. -/
def add_server (st : SState) (host : String) (port : Nat) (scanArg : Option Int)
    (startR : Option OwErr) (scanR : Option OwErr) : SState × Except OwErr Server :=
  let _scanEff : Option Int := if scanArg = some (-1) then st.scan else scanArg
  let s : Server := ⟨host, port, st.next_inst⟩
  let st0 : SState := { st with next_inst := st.next_inst + 1 }
  let p1 := push_event st0 (Event.ServerRegistered s)
  match p1.2 with
  | some e => (p1.1, Except.error e)
  | none =>
      match startR with
      | some e =>
          let p2 := push_event p1.1 (Event.ServerDeregistered s)
          (p2.1, Except.error (match p2.2 with
                               | some e2 => e2
                               | none => e))
      | none =>
          let st2 : SState := { p1.1 with servers := setInsert s p1.1.servers }
          (st2, match scanR with
                | some e => Except.error e
                | none => Except.ok s)

/-- Service.ensure_struct: returns the list of servers on which
cls.setup_struct is awaited (at most one).  `did_setup` models the
class flag cls._did_setup (modelled from the spec, device.py absent).
The source iterates list(self._servers) but returns after the first
setup_struct, so only the head of the iteration order is used. -/
def ensure_struct (st : SState) (did_setup : Bool) (server : Option Server)
    (maybe : Bool) : List Server :=
  if maybe && !st.load_structs then []
  else if did_setup then []
  else
    match server with
    | some s => [s]
    | none =>
        match st.servers with
        | [] => []
        | s :: _ => [s]

/-- Service.add_task: nursery.start runs _add_task up to
task_status.started(scope), which hands the fresh cancel scope back;
the caller then adds it to self._tasks and returns it.  The ghost
`spawned` set records every scope ever handed out. -/
def add_task (st : SState) : SState × Nat :=
  let scope := st.next_inst
  ({ st with tasks := setInsert scope st.tasks,
             spawned := setInsert scope st.spawned,
             next_inst := st.next_inst + 1 }, scope)

/-- The finally block of Service._add_task: try self._tasks.remove(scope)
except KeyError: pass.  Removal of an absent scope is silently ignored. -/
def task_cleanup (st : SState) (scope : Nat) : SState :=
  { st with tasks := st.tasks.erase scope }

/-- Completion of a task supervised by Service._add_task: the body
finished with outcome `r` (none for normal return, some for an error or
a delivered cancellation); the finally block removes the scope from
self._tasks and the outcome is reported unchanged. -/
def task_finish (st : SState) (scope : Nat) (r : Option OwErr) :
    SState × Option OwErr :=
  (task_cleanup st scope, r)

/-- Service.scan_now: for each server of the list(self._servers)
snapshot, in order, await n.start(s.scan_now, ...).  nursery.start runs
the scan activity until its task_status.started handoff; if the scan
raises before that handoff (`startup s = false`), n.start re-raises in
scan_now and the loop stops, so later servers are never started.  The
result is the list of servers whose scan activity was spawned. -/
def scan_spawned (servers : List Server) (startup : Server → Bool) : List Server :=
  match servers with
  | [] => []
  | s :: rest => if startup s then s :: scan_spawned rest startup else [s]

/-- Service._del_server: self._servers.remove(s) (KeyError when absent),
then push ServerDeregistered. -/
def _del_server (st : SState) (s : Server) : SState × Option OwErr :=
  if s ∈ st.servers then
    push_event { st with servers := st.servers.erase s } (Event.ServerDeregistered s)
  else
    (st, some OwErr.keyError)

/-- Service._del_device: the source executes self._devices.remove(d),
but self._devices is a dict and dict has no method named remove, so the
attribute lookup raises AttributeError before any mutation; neither the
registry removal nor the DeviceDeleted push ever happens. -/
def _del_device (st : SState) (_d : Device) : SState × Option OwErr :=
  (st, some OwErr.attributeError)

/-- EventWrapper enter (the events property): assert that no queue is
armed, then install a fresh empty queue of capacity 1000.  A failed
assert raises before the assignment. -/
def events_enter (st : SState) : SState × Option OwErr :=
  match st.event_queue with
  | some _ => (st, some OwErr.assertionError)
  | none => ({ st with event_queue := some [] }, none)

/-- EventWrapper exit: on a clean exit (errExit false) the source runs
assert self._event_queue.is_empty() — but trio.Queue has no method
named is_empty (the class offers empty(), which line 159 of the same
file uses correctly), so the attribute lookup raises AttributeError
before any emptiness evaluation, on every clean-exit release, whether
or not events are pending; the sentinel push and the queue detach
never run and the queue stays armed.  On an error exit the assert line
is skipped entirely: put_nowait the None sentinel (which itself raises
wouldBlock on a full queue, leaving the queue armed) and detach the
queue.  The sentinel is consumed only by the iterator, never surfaced,
so detaching discards it here.  With the queue unarmed, either path
touches an attribute of None and raises AttributeError as well. -/
def events_exit (st : SState) (errExit : Bool) : SState × Option OwErr :=
  match st.event_queue with
  | none => (st, some OwErr.attributeError)
  | some q =>
      if !errExit then (st, some OwErr.attributeError)
      else if q.length < qcap then ({ st with event_queue := none }, none)
      else (st, some OwErr.wouldBlock)

/-- One step of the consumer iterator: await self._event_queue.get()
pops the head when one is available; otherwise the consumer stays
suspended (state unchanged). -/
def events_anext (st : SState) : SState :=
  match st.event_queue with
  | some (_ :: rest) => { st with event_queue := some rest }
  | _ => st

/-- The observable actions of Service.aexit, in order: awaiting
s.drop() for a server, the cooperative drain of the event queue, and
cancelling a supervised scope. -/
inductive Action where
  | drop (s : Server)
  | drain
  | cancel (t : Nat)
deriving DecidableEq

/-- The drop loop of Service.aexit over list(self._servers). -/
def dropPhase : List Server → List Action
  | [] => []
  | s :: rest => Action.drop s :: dropPhase rest

/-- The drain of Service.aexit: entered whenever self._event_queue is
not None (the source never inspects the exception info tb); the while
loop yields until the queue is empty, performing no yield at all when
the queue is already empty.  The whole loop is abstracted into the
single action `drain`. -/
def drainPhase : Option (List Event) → List Action
  | none => []
  | some q => if q.isEmpty then [] else [Action.drain]

/-- The cancel loop of Service.aexit over list(self._tasks). -/
def cancelPhase : List Nat → List Action
  | [] => []
  | t :: rest => Action.cancel t :: cancelPhase rest

/-- Ordered action trace of Service.aexit.  `hasError` models whether
an exception is in flight on exit; the source ignores its tb arguments,
so the trace cannot depend on it. -/
def aexit_trace (st : SState) (_hasError : Bool) : List Action :=
  dropPhase st.servers ++ drainPhase st.event_queue ++ cancelPhase st.tasks

/-- Phase index of an aexit action: drops before drain before cancels. -/
def phaseOf : Action → Nat
  | Action.drop _ => 0
  | Action.drain => 1
  | Action.cancel _ => 2

/-- The operations of the orchestrator, as a step alphabet for runs
over its lifetime.  Collaborator outcomes are carried as data.
Service.aexit is not listed: its state effects decompose into the hook
operations already present (drops end in delServer, cancelled tasks end
in taskFinish). -/
inductive Op where
  | addServer (host : String) (port : Nat) (scanArg : Option Int)
      (startR scanR : Option OwErr)
  | getDevice (id : Nat)
  | addTask
  | taskFinish (scope : Nat) (r : Option OwErr)
  | delServer (s : Server)
  | delDevice (d : Device)
  | eventsEnter
  | eventsExit (errExit : Bool)
  | eventsAnext

/-- State effect of one operation. -/
def step (st : SState) : Op → SState
  | Op.addServer h p sc r1 r2 => (add_server st h p sc r1 r2).1
  | Op.getDevice id => (get_device st id).1
  | Op.addTask => (add_task st).1
  | Op.taskFinish scope r => (task_finish st scope r).1
  | Op.delServer s => (_del_server st s).1
  | Op.delDevice d => (_del_device st d).1
  | Op.eventsEnter => (events_enter st).1
  | Op.eventsExit b => (events_exit st b).1
  | Op.eventsAnext => events_anext st

/-- A run of the orchestrator: fold the steps. -/
def run : SState → List Op → SState
  | st, [] => st
  | st, op :: ops => run (step st op) ops

/-- Initial state, as built by Service.init inside OWFS. -/
def init (scanCfg : Option Int) (loadStructs : Bool) : SState :=
  ⟨[], [], [], none, scanCfg, loadStructs, 0, [], []⟩

/-- Whether the event `e` is a DeviceAdded for id k. -/
def isDevAddFor (k : Nat) : Event → Bool
  | Event.DeviceAdded d => d.id == k
  | _ => false

/-- How many DeviceAdded events for id k a trace holds. -/
def addedCount (k : Nat) (tr : List Event) : Nat :=
  tr.countP (isDevAddFor k)

/-- The armed queue (if any) has room for n more events. -/
def qroom (st : SState) (n : Nat) : Bool :=
  match st.event_queue with
  | none => true
  | some q => decide (q.length + n ≤ qcap)

/-! Concrete states used by witnesses and counterexamples. -/

/-- A sample event used to fill queues in concrete states. -/
def ev0 : Event := Event.DeviceAdded ⟨0, 0⟩

/-- A state with a consumer armed and one pending event. -/
def stArmed1 : SState := ⟨[], [], [], some [ev0], none, true, 0, [], []⟩

/-- A state with a consumer armed and no pending event. -/
def stArmedEmpty : SState := ⟨[], [], [], some [], none, true, 0, [], []⟩

/-- A state with a consumer armed and the queue full: reachable by
arming the bus and creating 1000 devices while the consumer makes no
progress. -/
def stFull : SState :=
  ⟨[], [], [], some (List.replicate 1000 ev0), none, true, 0, [], []⟩

/-- A second full-queue state, filled with a different event. -/
def stFull2 : SState :=
  ⟨[], [], [], some (List.replicate 1000 (Event.ServerRegistered ⟨"x", 1, 5⟩)),
   none, true, 0, [], []⟩

/-- A state with a consumer armed and 999 pending events: room for
exactly one more push. -/
def st999 : SState :=
  ⟨[], [], [], some (List.replicate 999 ev0), none, true, 0, [], []⟩

/-- A concrete registered device and server, and a state holding them. -/
def dev9 : Device := ⟨9, 0⟩

/-- The server registered in st9. -/
def srv9 : Server := ⟨"h", 4304, 1⟩

/-- A state with one registered server and one registered device. -/
def st9 : SState := ⟨[srv9], [(9, dev9)], [], none, none, true, 2, [], []⟩

/-- Three concrete servers for the scan counterexample. -/
def srvA : Server := ⟨"a", 4304, 0⟩

/-- Second concrete server. -/
def srvB : Server := ⟨"b", 4304, 1⟩

/-- Third concrete server. -/
def srvC : Server := ⟨"c", 4304, 2⟩

/-! Frame lemmas: which parts of the state each operation leaves alone. -/

lemma push_event_frame (st : SState) (e : Event) :
    (push_event st e).1.devices = st.devices
    ∧ (push_event st e).1.tasks = st.tasks
    ∧ (push_event st e).1.spawned = st.spawned
    ∧ (push_event st e).1.servers = st.servers
    ∧ (push_event st e).1.next_inst = st.next_inst := by
  rcases hq : st.event_queue with _ | q
  · simp [push_event, hq]
  · by_cases h : q.length < qcap <;> simp [push_event, hq, h]

lemma push_event_trace_or (st : SState) (e : Event) :
    (push_event st e).1.trace = st.trace ++ [e]
    ∨ (push_event st e).1.trace = st.trace := by
  rcases hq : st.event_queue with _ | q
  · left; simp [push_event, hq]
  · by_cases h : q.length < qcap
    · left; simp [push_event, hq, h]
    · right; simp [push_event, hq, h]

lemma addedCount_append (k : Nat) (t1 t2 : List Event) :
    addedCount k (t1 ++ t2) = addedCount k t1 + addedCount k t2 := by
  simp [addedCount, List.countP_append]

lemma addedCount_push_le (k : Nat) (st : SState) (e : Event) :
    addedCount k (push_event st e).1.trace
      ≤ addedCount k st.trace + (if isDevAddFor k e then 1 else 0) := by
  rcases push_event_trace_or st e with h | h <;> rw [h]
  · rw [addedCount_append]
    have hone : addedCount k [e] = if isDevAddFor k e then 1 else 0 := by
      simp [addedCount, List.countP_cons]
    omega
  · omega

lemma addedCount_push_of_not (k : Nat) (st : SState) (e : Event)
    (h : isDevAddFor k e = false) :
    addedCount k (push_event st e).1.trace = addedCount k st.trace := by
  rcases push_event_trace_or st e with hp | hp <;> rw [hp]
  rw [addedCount_append]
  simp [addedCount, List.countP_cons, h]

/-! Targeted frame predicates: an operation leaves the device registry
and the DeviceAdded emission count alone (devFixed), or leaves the task
supervisor sets alone (tasksFixed). -/

/-- The second state keeps the device registry of the first state and its
DeviceAdded count for id k. -/
def devFixed (k : Nat) (st st2 : SState) : Prop :=
  st2.devices = st.devices ∧ addedCount k st2.trace = addedCount k st.trace

/-- The second state keeps the supervisor set of the first state and ghost
spawned set. -/
def tasksFixed (st st2 : SState) : Prop :=
  st2.tasks = st.tasks ∧ st2.spawned = st.spawned

lemma devFixed_push {k : Nat} {st st1 : SState} (h : devFixed k st st1)
    (e : Event) (he : isDevAddFor k e = false) :
    devFixed k st (push_event st1 e).1 :=
  ⟨(push_event_frame st1 e).1.trans h.1,
   (addedCount_push_of_not k st1 e he).trans h.2⟩

lemma tasksFixed_push {st st1 : SState} (h : tasksFixed st st1) (e : Event) :
    tasksFixed st (push_event st1 e).1 :=
  ⟨(push_event_frame st1 e).2.1.trans h.1,
   (push_event_frame st1 e).2.2.1.trans h.2⟩

lemma add_server_devFixed (k : Nat) (st : SState) (host : String) (port : Nat)
    (sc : Option Int) (r1 r2 : Option OwErr) :
    devFixed k st (add_server st host port sc r1 r2).1 := by
  simp only [add_server]
  split
  · exact devFixed_push ⟨rfl, rfl⟩ _ (by rfl)
  · split
    · exact devFixed_push (devFixed_push ⟨rfl, rfl⟩ _ (by rfl)) _ (by rfl)
    · exact devFixed_push ⟨rfl, rfl⟩ _ (by rfl)

lemma add_server_tasksFixed (st : SState) (host : String) (port : Nat)
    (sc : Option Int) (r1 r2 : Option OwErr) :
    tasksFixed st (add_server st host port sc r1 r2).1 := by
  simp only [add_server]
  split
  · exact tasksFixed_push ⟨rfl, rfl⟩ _
  · split
    · exact tasksFixed_push (tasksFixed_push ⟨rfl, rfl⟩ _) _
    · exact tasksFixed_push ⟨rfl, rfl⟩ _

lemma get_device_tasksFixed (st : SState) (id : Nat) :
    tasksFixed st (get_device st id).1 := by
  simp only [get_device]
  split
  · exact ⟨rfl, rfl⟩
  · exact tasksFixed_push ⟨rfl, rfl⟩ _

lemma del_server_devFixed (k : Nat) (st : SState) (s : Server) :
    devFixed k st (_del_server st s).1 := by
  simp only [_del_server]
  split
  · exact devFixed_push ⟨rfl, rfl⟩ _ (by rfl)
  · exact ⟨rfl, rfl⟩

lemma del_server_tasksFixed (st : SState) (s : Server) :
    tasksFixed st (_del_server st s).1 := by
  simp only [_del_server]
  split
  · exact tasksFixed_push ⟨rfl, rfl⟩ _
  · exact ⟨rfl, rfl⟩

lemma del_device_devFixed (k : Nat) (st : SState) (d : Device) :
    devFixed k st (_del_device st d).1 := ⟨rfl, rfl⟩

lemma del_device_tasksFixed (st : SState) (d : Device) :
    tasksFixed st (_del_device st d).1 := ⟨rfl, rfl⟩

lemma add_task_devFixed (k : Nat) (st : SState) :
    devFixed k st (add_task st).1 := ⟨rfl, rfl⟩

lemma task_finish_devFixed (k : Nat) (st : SState) (scope : Nat) (r : Option OwErr) :
    devFixed k st (task_finish st scope r).1 := ⟨rfl, rfl⟩

lemma events_enter_devFixed (k : Nat) (st : SState) :
    devFixed k st (events_enter st).1 := by
  simp only [events_enter]
  split <;> exact ⟨rfl, rfl⟩

lemma events_enter_tasksFixed (st : SState) :
    tasksFixed st (events_enter st).1 := by
  simp only [events_enter]
  split <;> exact ⟨rfl, rfl⟩

lemma events_exit_devFixed (k : Nat) (st : SState) (b : Bool) :
    devFixed k st (events_exit st b).1 := by
  simp only [events_exit]
  split
  · exact ⟨rfl, rfl⟩
  · split
    · exact ⟨rfl, rfl⟩
    · split <;> exact ⟨rfl, rfl⟩

lemma events_exit_tasksFixed (st : SState) (b : Bool) :
    tasksFixed st (events_exit st b).1 := by
  simp only [events_exit]
  split
  · exact ⟨rfl, rfl⟩
  · split
    · exact ⟨rfl, rfl⟩
    · split <;> exact ⟨rfl, rfl⟩

lemma events_anext_devFixed (k : Nat) (st : SState) :
    devFixed k st (events_anext st) := by
  simp only [events_anext]
  split <;> exact ⟨rfl, rfl⟩

lemma events_anext_tasksFixed (st : SState) :
    tasksFixed st (events_anext st) := by
  simp only [events_anext]
  split <;> exact ⟨rfl, rfl⟩

/-! Invariants preserved by every operation of a run. -/

/-- Device invariant for id k: at most as many DeviceAdded events for k
have been emitted as the registry justifies — one if k is registered,
none otherwise. -/
def devInv (k : Nat) (st : SState) : Prop :=
  addedCount k st.trace ≤ if (lookupDev k st.devices).isSome then 1 else 0

/-- Supervisor invariant: the task set holds only scopes that add_task
handed out, and holds no duplicates. -/
def supInv (st : SState) : Prop :=
  st.tasks ⊆ st.spawned ∧ st.tasks.Nodup

lemma mem_setInsert {α : Type} [DecidableEq α] (x a : α) (l : List α) :
    x ∈ setInsert a l ↔ x = a ∨ x ∈ l := by
  unfold setInsert
  by_cases h : a ∈ l
  · simp only [h, if_true]
    constructor
    · exact Or.inr
    · rintro (rfl | hx)
      · exact h
      · exact hx
  · simp [h, List.mem_cons]

lemma setInsert_nodup {α : Type} [DecidableEq α] (a : α) (l : List α)
    (h : l.Nodup) : (setInsert a l).Nodup := by
  unfold setInsert
  by_cases hm : a ∈ l <;> simp [hm, List.nodup_cons, h]

lemma devInv_of_fixed {k : Nat} {st st2 : SState} (h : devFixed k st st2)
    (hi : devInv k st) : devInv k st2 := by
  unfold devInv at *
  rw [h.1, h.2]
  exact hi

lemma supInv_of_fixed {st st2 : SState} (h : tasksFixed st st2)
    (hi : supInv st) : supInv st2 := by
  unfold supInv at *
  rw [h.1, h.2]
  exact hi

lemma lookupDev_cons (k a : Nat) (d : Device) (l : List (Nat × Device)) :
    lookupDev k ((a, d) :: l) = if k = a then some d else lookupDev k l := rfl

lemma devInv_get_device (k id : Nat) (st : SState) (h : devInv k st) :
    devInv k (get_device st id).1 := by
  simp only [get_device]
  split
  · exact h
  · rename_i hl
    by_cases hk : k = id
    · subst hk
      unfold devInv at h ⊢
      rw [hl] at h
      simp only [Option.isSome_none, Bool.false_eq_true, if_false] at h
      rw [(push_event_frame (devStep st k) (Event.DeviceAdded ⟨k, st.next_inst⟩)).1]
      rw [show (devStep st k).devices
            = (k, (⟨k, st.next_inst⟩ : Device)) :: st.devices from rfl]
      rw [lookupDev_cons, if_pos rfl]
      have hb : isDevAddFor k (Event.DeviceAdded ⟨k, st.next_inst⟩) = true := by
        simp [isDevAddFor]
      have hle := addedCount_push_le k (devStep st k)
        (Event.DeviceAdded ⟨k, st.next_inst⟩)
      simp only [hb, if_true] at hle
      rw [show (devStep st k).trace = st.trace from rfl] at hle
      simp only [Option.isSome_some, if_true]
      omega
    · unfold devInv at h ⊢
      rw [(push_event_frame (devStep st id) (Event.DeviceAdded ⟨id, st.next_inst⟩)).1]
      rw [show (devStep st id).devices
            = (id, (⟨id, st.next_inst⟩ : Device)) :: st.devices from rfl]
      rw [lookupDev_cons, if_neg hk]
      have hne : isDevAddFor k (Event.DeviceAdded ⟨id, st.next_inst⟩) = false := by
        simp only [isDevAddFor]
        simp
        omega
      rw [addedCount_push_of_not k _ _ hne]
      exact h

lemma devInv_step (k : Nat) (st : SState) (op : Op) (h : devInv k st) :
    devInv k (step st op) := by
  cases op with
  | addServer host port sc r1 r2 =>
      exact devInv_of_fixed (add_server_devFixed k st host port sc r1 r2) h
  | getDevice id => exact devInv_get_device k id st h
  | addTask => exact devInv_of_fixed (add_task_devFixed k st) h
  | taskFinish scope r => exact devInv_of_fixed (task_finish_devFixed k st scope r) h
  | delServer s => exact devInv_of_fixed (del_server_devFixed k st s) h
  | delDevice d => exact devInv_of_fixed (del_device_devFixed k st d) h
  | eventsEnter => exact devInv_of_fixed (events_enter_devFixed k st) h
  | eventsExit b => exact devInv_of_fixed (events_exit_devFixed k st b) h
  | eventsAnext => exact devInv_of_fixed (events_anext_devFixed k st) h

lemma supInv_step (st : SState) (op : Op) (h : supInv st) : supInv (step st op) := by
  cases op with
  | addServer host port sc r1 r2 =>
      exact supInv_of_fixed (add_server_tasksFixed st host port sc r1 r2) h
  | getDevice id => exact supInv_of_fixed (get_device_tasksFixed st id) h
  | addTask =>
      simp only [step, add_task]
      refine ⟨?_, setInsert_nodup _ _ h.2⟩
      intro x hx
      rcases (mem_setInsert x st.next_inst st.tasks).1 hx with rfl | hx2
      · exact (mem_setInsert _ _ _).2 (Or.inl rfl)
      · exact (mem_setInsert _ _ _).2 (Or.inr (h.1 hx2))
  | taskFinish scope r =>
      exact ⟨fun x hx => h.1 (List.erase_subset scope st.tasks hx), h.2.erase scope⟩
  | delServer s => exact supInv_of_fixed (del_server_tasksFixed st s) h
  | delDevice d => exact supInv_of_fixed (del_device_tasksFixed st d) h
  | eventsEnter => exact supInv_of_fixed (events_enter_tasksFixed st) h
  | eventsExit b => exact supInv_of_fixed (events_exit_tasksFixed st b) h
  | eventsAnext => exact supInv_of_fixed (events_anext_tasksFixed st) h

lemma devInv_run (k : Nat) (ops : List Op) (st : SState) (h : devInv k st) :
    devInv k (run st ops) := by
  induction ops generalizing st with
  | nil => exact h
  | cons op ops ih => exact ih (step st op) (devInv_step k st op h)

lemma supInv_run (ops : List Op) (st : SState) (h : supInv st) :
    supInv (run st ops) := by
  induction ops generalizing st with
  | nil => exact h
  | cons op ops ih => exact ih (step st op) (supInv_step st op h)

/-! Monotonicity of the device registry: once an id maps to a device
instance, it maps to that instance forever (no operation deletes or
overwrites an entry; the broken _del_device raises before mutating). -/

lemma get_device_hit (st : SState) (id : Nat) (d : Device)
    (h : lookupDev id st.devices = some d) :
    get_device st id = (st, Except.ok d) := by
  simp only [get_device, h]

lemma get_device_lookup_mono (st : SState) (id k : Nat) (d : Device)
    (h : lookupDev k st.devices = some d) :
    lookupDev k (get_device st id).1.devices = some d := by
  simp only [get_device]
  split
  · exact h
  · rename_i hl
    rw [(push_event_frame (devStep st id) (Event.DeviceAdded ⟨id, st.next_inst⟩)).1]
    rw [show (devStep st id).devices
          = (id, (⟨id, st.next_inst⟩ : Device)) :: st.devices from rfl]
    rw [lookupDev_cons]
    have hk : k ≠ id := by
      intro hcon
      rw [hcon, hl] at h
      cases h
    rw [if_neg hk]
    exact h

lemma step_lookup_mono (st : SState) (op : Op) (k : Nat) (d : Device)
    (h : lookupDev k st.devices = some d) :
    lookupDev k (step st op).devices = some d := by
  cases op with
  | addServer host port sc r1 r2 =>
      simp only [step]
      rw [(add_server_devFixed k st host port sc r1 r2).1]
      exact h
  | getDevice id =>
      simp only [step]
      exact get_device_lookup_mono st id k d h
  | addTask =>
      simp only [step]
      rw [(add_task_devFixed k st).1]
      exact h
  | taskFinish scope r =>
      simp only [step]
      rw [(task_finish_devFixed k st scope r).1]
      exact h
  | delServer s =>
      simp only [step]
      rw [(del_server_devFixed k st s).1]
      exact h
  | delDevice dd =>
      simp only [step]
      rw [(del_device_devFixed k st dd).1]
      exact h
  | eventsEnter =>
      simp only [step]
      rw [(events_enter_devFixed k st).1]
      exact h
  | eventsExit b =>
      simp only [step]
      rw [(events_exit_devFixed k st b).1]
      exact h
  | eventsAnext =>
      simp only [step]
      rw [(events_anext_devFixed k st).1]
      exact h

lemma run_lookup_mono (ops : List Op) (st : SState) (k : Nat) (d : Device)
    (h : lookupDev k st.devices = some d) :
    lookupDev k (run st ops).devices = some d := by
  induction ops generalizing st with
  | nil => exact h
  | cons op ops ih => exact ih (step st op) (step_lookup_mono st op k d h)

/-! Result characterisations of get_device and push_event. -/

lemma get_device_ok_lookup (st : SState) (id : Nat) (d : Device)
    (h : (get_device st id).2 = Except.ok d) :
    lookupDev id (get_device st id).1.devices = some d := by
  rcases hl : lookupDev id st.devices with _ | d0
  · simp only [get_device, hl] at h ⊢
    rw [(push_event_frame (devStep st id) (Event.DeviceAdded ⟨id, st.next_inst⟩)).1]
    rw [show (devStep st id).devices
          = (id, (⟨id, st.next_inst⟩ : Device)) :: st.devices from rfl]
    rw [lookupDev_cons, if_pos rfl]
    rcases hp : (push_event (devStep st id) (Event.DeviceAdded ⟨id, st.next_inst⟩)).2
      with _ | e
    · rw [hp] at h
      simp only [Except.ok.injEq] at h
      rw [h]
    · rw [hp] at h
      cases h
  · simp only [get_device, hl] at h ⊢
    simp only [Except.ok.injEq] at h
    rw [h]

lemma push_event_ok_of_room (st : SState) (e : Event) (h : qroom st 1 = true) :
    (push_event st e).2 = none
    ∧ (push_event st e).1.trace = st.trace ++ [e] := by
  rcases hq : st.event_queue with _ | q
  · simp [push_event, hq]
  · have hlen : q.length < qcap := by
      unfold qroom at h
      rw [hq] at h
      have := of_decide_eq_true h
      omega
    simp [push_event, hq, hlen]

lemma qroom_mono (st : SState) (m n : Nat) (hmn : m ≤ n) (h : qroom st n = true) :
    qroom st m = true := by
  unfold qroom at *
  rcases hq : st.event_queue with _ | q
  · rfl
  · rw [hq] at h
    have := of_decide_eq_true h
    exact decide_eq_true (by omega)

lemma qroom_push (st : SState) (e : Event) (n : Nat)
    (h : qroom st (n + 1) = true) : qroom (push_event st e).1 n = true := by
  rcases hq : st.event_queue with _ | q
  · simp [push_event, hq, qroom]
  · unfold qroom at h
    rw [hq] at h
    have hle := of_decide_eq_true h
    have hlen : q.length < qcap := by omega
    simp only [push_event, hq, hlen, if_true]
    unfold qroom
    simp only []
    refine decide_eq_true ?_
    simp only [List.length_append, List.length_cons, List.length_nil]
    omega

/-! Claim theorems. -/

/-- C3 (amended): Service.push_event never suspends (it is a plain
synchronous function); with no consumer armed it silently discards the
event and returns normally; with a consumer armed and room in the
queue it appends the event and returns normally; but with a consumer
armed and the queue full it raises trio.WouldBlock — the event is lost
and the state unchanged — rather than returning normally. -/
theorem push_event_state_spec (st : SState) (e : Event) :
    (st.event_queue = none →
      push_event st e = ({ st with trace := st.trace ++ [e] }, none))
    ∧ (∀ q, st.event_queue = some q → q.length < qcap →
      push_event st e
        = ({ st with event_queue := some (q ++ [e]),
                     trace := st.trace ++ [e] }, none))
    ∧ (∀ q, st.event_queue = some q → qcap ≤ q.length →
      push_event st e = (st, some OwErr.wouldBlock)) := by
  refine ⟨?_, ?_, ?_⟩
  · intro hq
    simp [push_event, hq]
  · intro q hq hlen
    simp [push_event, hq, hlen]
  · intro q hq hlen
    have hn : ¬ q.length < qcap := by omega
    simp [push_event, hq, hn]

/-- C3 witness: the characterisation applied at a concrete unarmed
state — the event is discarded and no error raised. -/
theorem push_event_state_spec_witness :
    push_event (init none true) ev0
      = ({ init none true with trace := [ev0] }, none) :=
  (push_event_state_spec (init none true) ev0).1 rfl

/-- C3 counterexample: at a concrete state with a consumer armed and
the queue full, push_event raises WouldBlock, refuting the claim that
emit never raises in every bus state. -/
theorem push_event_full_raises :
    (push_event stFull2 ev0).2 = some OwErr.wouldBlock := rfl

/-- C7 (amended): when a consumer is armed and the queue already holds
its full capacity of pending events, the underlying push (put_nowait)
raises WouldBlock at once: the producing activity is never suspended
(push_event is synchronous and total), the event is not enqueued, and
the state is returned unchanged. -/
theorem push_event_full_no_suspend (st : SState) (e : Event) (q : List Event)
    (hq : st.event_queue = some q) (hfull : qcap ≤ q.length) :
    push_event st e = (st, some OwErr.wouldBlock) := by
  have hn : ¬ q.length < qcap := by omega
  simp [push_event, hq, hn]

/-- C7 witness: the full-queue behaviour at a concrete state. -/
theorem push_event_full_no_suspend_witness :
    push_event stFull ev0 = (stFull, some OwErr.wouldBlock) :=
  push_event_full_no_suspend stFull ev0 (List.replicate 1000 ev0) rfl
    (by simp [qcap])

/-- C7 counterexample: at a concrete full-bus state the claimed
behaviour — the push does not fail and does not drop the event — is
false: the call fails with WouldBlock and the queue is unchanged, so
the event was dropped rather than enqueued or waited for. -/
theorem push_event_full_drops_event :
    (push_event stFull2 (Event.DeviceDeleted ⟨1, 1⟩)).2 = some OwErr.wouldBlock
    ∧ (push_event stFull2 (Event.DeviceDeleted ⟨1, 1⟩)).1.event_queue
        = stFull2.event_queue :=
  ⟨rfl, rfl⟩

/-- C5 (code bug): the double-arm half of the claim holds — arming the
event stream while a consumer is already armed fails the source assert,
a detected invariant violation, leaving the state unchanged — and on an
error exit no emptiness check is enforced (the assert line is skipped,
so releasing an armed empty queue succeeds); but the claimed clean-exit
emptiness check does not exist in the program: the source asserts
self._event_queue.is_empty(), a method trio.Queue does not have, so
every clean-exit release raises AttributeError before any emptiness
evaluation — at an armed empty queue, where the claimed check would
have passed, exactly as at an armed queue with a pending event, where
the claim expects an assertion failure. -/
theorem events_exit_clean_raises_attribute_error :
    events_enter stArmed1 = (stArmed1, some OwErr.assertionError)
    ∧ events_exit stArmedEmpty false = (stArmedEmpty, some OwErr.attributeError)
    ∧ events_exit stArmed1 false = (stArmed1, some OwErr.attributeError)
    ∧ events_exit stArmedEmpty true
        = ({ stArmedEmpty with event_queue := none }, none) :=
  ⟨rfl, rfl, rfl, rfl⟩

/-- C10: with no server registered, no explicit server argument, the
class structure not yet loaded, and the best-effort short-circuit not
applying, ensure_struct returns normally having invoked setup_struct on
no server at all — the structure is silently left unloaded instead of
an error being raised. -/
theorem ensure_struct_no_server_noop (st : SState) (did_setup maybe : Bool)
    (hs : st.servers = [])
    (hd : did_setup = false)
    (hm : maybe = false ∨ st.load_structs = true) :
    ensure_struct st did_setup none maybe = [] := by
  unfold ensure_struct
  rw [hs]
  split
  · rfl
  · split
    · rfl
    · rfl

/-- C10 witness: ensure_struct with an empty registry at the initial
state performs no setup call and returns normally. -/
theorem ensure_struct_no_server_noop_witness :
    ensure_struct (init none true) false none false = [] :=
  ensure_struct_no_server_noop (init none true) false false rfl rfl (Or.inl rfl)

/-- C9 (code bug): at a state with device 9 registered, the device
deregistration hook raises AttributeError (a Python dict has no method
named remove) and leaves every registry and the emission history
unchanged — no DeviceDeleted is ever emitted — while the server hook
_del_server behaves exactly as specified: it removes the entry and
emits the matching ServerDeregistered, leaving the device registry
unchanged. -/
theorem del_device_raises_attribute_error :
    _del_device st9 dev9 = (st9, some OwErr.attributeError)
    ∧ _del_server st9 srv9
        = ({ st9 with servers := [],
                      trace := [Event.ServerDeregistered srv9] }, none) :=
  ⟨rfl, by decide⟩

/-- C8 (amended): scan_now starts scans sequentially inside a fresh
sub-scope, awaiting the startup handoff of each scan activity before
starting the next, and returns only after the whole sub-scope has
finished; when every scan starts successfully, exactly one scan
activity is spawned per server registered at call time, in registry
order; but when one scan fails during its startup handoff, the scans
of the servers after it are never spawned. -/
theorem scan_now_spec (startup : Server → Bool) :
    (∀ servers : List Server, (∀ s ∈ servers, startup s = true) →
      scan_spawned servers startup = servers)
    ∧ (∀ (pre : List Server) (s : Server) (post : List Server),
      (∀ x ∈ pre, startup x = true) → startup s = false →
      scan_spawned (pre ++ s :: post) startup = pre ++ [s]) := by
  constructor
  · intro servers h
    induction servers with
    | nil => rfl
    | cons s rest ih =>
        unfold scan_spawned
        rw [h s (List.mem_cons_self s rest), if_pos rfl]
        rw [ih (fun x hx => h x (List.mem_cons_of_mem s hx))]
  · intro pre s post hpre hs
    induction pre with
    | nil =>
        simp only [List.nil_append]
        unfold scan_spawned
        rw [hs]
        simp
    | cons p pre ih =>
        simp only [List.cons_append]
        unfold scan_spawned
        rw [hpre p (List.mem_cons_self p pre), if_pos rfl]
        rw [ih (fun x hx => hpre x (List.mem_cons_of_mem p hx))]

/-- C8 witness: with every scan starting successfully, exactly one scan
activity per registered server is spawned. -/
theorem scan_now_spec_witness :
    scan_spawned [srvA, srvB] (fun _ => true) = [srvA, srvB] :=
  (scan_now_spec (fun _ => true)).1 [srvA, srvB] (fun _ _ => rfl)

/-- C8 counterexample: three servers are registered and the scan of
server B fails during its startup handoff; the scan activity of server
C is then never spawned, refuting the claim that exactly one scan
activity is spawned per registered server and that a failure in one
scan does not suppress the starting of the others. -/
theorem scan_now_startup_failure_suppresses :
    scan_spawned [srvA, srvB, srvC] (fun s => s.inst == 0) = [srvA, srvB]
    ∧ srvC ∉ scan_spawned [srvA, srvB, srvC] (fun s => s.inst == 0) := by
  constructor
  · rfl
  · decide

/-! Phase lemmas for the shutdown trace of Service.aexit. -/

lemma phaseOf_mem_dropPhase (l : List Server) (a : Action)
    (h : a ∈ dropPhase l) : phaseOf a = 0 := by
  induction l with
  | nil => cases h
  | cons s rest ih =>
      rcases List.mem_cons.1 h with rfl | h2
      · rfl
      · exact ih h2

lemma phaseOf_mem_cancelPhase (l : List Nat) (a : Action)
    (h : a ∈ cancelPhase l) : phaseOf a = 2 := by
  induction l with
  | nil => cases h
  | cons t rest ih =>
      rcases List.mem_cons.1 h with rfl | h2
      · rfl
      · exact ih h2

lemma phaseOf_mem_drainPhase (oq : Option (List Event)) (a : Action)
    (h : a ∈ drainPhase oq) : phaseOf a = 1 := by
  rcases oq with _ | q
  · cases h
  · rw [show drainPhase (some q)
        = if q.isEmpty then [] else [Action.drain] from rfl] at h
    by_cases hqe : q.isEmpty = true
    · rw [if_pos hqe] at h
      cases h
    · rw [if_neg hqe] at h
      rw [List.mem_singleton.1 h]
      rfl

lemma pairwise_phase_of_const (l : List Action) (n : Nat)
    (h : ∀ a ∈ l, phaseOf a = n) :
    List.Pairwise (fun a c => phaseOf a ≤ phaseOf c) l := by
  induction l with
  | nil => exact List.Pairwise.nil
  | cons a rest ih =>
      refine List.Pairwise.cons ?_ (ih fun c hc => h c (List.mem_cons_of_mem a hc))
      intro c hc
      rw [h a (List.mem_cons_self a rest),
          h c (List.mem_cons_of_mem a hc)]

lemma filter_phase_self (l : List Action) (n : Nat)
    (h : ∀ a ∈ l, phaseOf a = n) :
    l.filter (fun a => phaseOf a == n) = l := by
  refine List.filter_eq_self.2 fun a ha => ?_
  rw [h a ha]
  simp

lemma filter_phase_nil (l : List Action) (n m : Nat) (hnm : n ≠ m)
    (h : ∀ a ∈ l, phaseOf a = n) :
    l.filter (fun a => phaseOf a == m) = [] := by
  refine List.filter_eq_nil_iff.2 fun a ha => ?_
  rw [h a ha]
  simp
  omega

/-- C4 (amended): the shutdown trace of Service.aexit is phase-ordered:
every server drop precedes any drain activity, which precedes every
task cancellation, so no supervised task is cancelled before all server
drops complete; the drops are exactly the live servers and the cancels
exactly the supervised scopes, each in registry order; but the drain
runs whenever a consumer is armed with pending events — regardless of
whether the exit carries an in-flight error — and the whole trace is
identical for an error exit and an error-free exit, because the source
never inspects its exception arguments. -/
theorem aexit_order_spec (st : SState) (b : Bool) :
    List.Pairwise (fun a c => phaseOf a ≤ phaseOf c) (aexit_trace st b)
    ∧ (aexit_trace st b).filter (fun a => phaseOf a == 0) = dropPhase st.servers
    ∧ (aexit_trace st b).filter (fun a => phaseOf a == 2) = cancelPhase st.tasks
    ∧ (Action.drain ∈ aexit_trace st b ↔ ∃ q, st.event_queue = some q ∧ q ≠ [])
    ∧ aexit_trace st true = aexit_trace st false := by
  refine ⟨?_, ?_, ?_, ?_, rfl⟩
  · unfold aexit_trace
    rw [List.append_assoc]
    refine (List.pairwise_append).2 ⟨?_, ?_, ?_⟩
    · exact pairwise_phase_of_const _ 0 (phaseOf_mem_dropPhase st.servers)
    · refine (List.pairwise_append).2 ⟨?_, ?_, ?_⟩
      · exact pairwise_phase_of_const _ 1 (phaseOf_mem_drainPhase st.event_queue)
      · exact pairwise_phase_of_const _ 2 (phaseOf_mem_cancelPhase st.tasks)
      · intro a ha c hc
        rw [phaseOf_mem_drainPhase st.event_queue a ha,
            phaseOf_mem_cancelPhase st.tasks c hc]
        omega
    · intro a ha c hc
      rw [phaseOf_mem_dropPhase st.servers a ha]
      rcases (List.mem_append).1 hc with hc | hc
      · rw [phaseOf_mem_drainPhase st.event_queue c hc]
        omega
      · rw [phaseOf_mem_cancelPhase st.tasks c hc]
        omega
  · unfold aexit_trace
    rw [List.filter_append, List.filter_append]
    rw [filter_phase_self _ 0 (phaseOf_mem_dropPhase st.servers)]
    rw [filter_phase_nil _ 1 0 (by omega) (phaseOf_mem_drainPhase st.event_queue)]
    rw [filter_phase_nil _ 2 0 (by omega) (phaseOf_mem_cancelPhase st.tasks)]
    simp
  · unfold aexit_trace
    rw [List.filter_append, List.filter_append]
    rw [filter_phase_self _ 2 (phaseOf_mem_cancelPhase st.tasks)]
    rw [filter_phase_nil _ 1 2 (by omega) (phaseOf_mem_drainPhase st.event_queue)]
    rw [filter_phase_nil _ 0 2 (by omega) (phaseOf_mem_dropPhase st.servers)]
    simp
  · constructor
    · intro h
      unfold aexit_trace at h
      rw [List.append_assoc] at h
      rcases (List.mem_append).1 h with h | h
      · have := phaseOf_mem_dropPhase st.servers _ h
        simp [phaseOf] at this
      · rcases (List.mem_append).1 h with h | h
        · rcases hq : st.event_queue with _ | q
          · rw [hq] at h
            cases h
          · refine ⟨q, rfl, ?_⟩
            rw [hq] at h
            unfold drainPhase at h
            intro hcon
            rw [hcon] at h
            simp at h
        · have := phaseOf_mem_cancelPhase st.tasks _ h
          simp [phaseOf] at this
    · rintro ⟨q, hq, hne⟩
      unfold aexit_trace
      rw [List.append_assoc]
      refine (List.mem_append).2 (Or.inr ((List.mem_append).2 (Or.inl ?_)))
      rw [hq]
      have hqe : q.isEmpty = false := by
        cases q with
        | nil => exact absurd rfl hne
        | cons a l => rfl
      rw [show drainPhase (some q)
            = if q.isEmpty then [] else [Action.drain] from rfl]
      simp [hqe]

/-- C4 counterexample: exiting with an in-flight error while a consumer
is armed with one pending event still enters the drain loop, refuting
the claim that the bus is drained only when exiting without an
in-flight error. -/
theorem aexit_drains_on_error_exit :
    Action.drain ∈ aexit_trace stArmed1 true := by
  decide

/-- C1 (amended): provided the armed queue, if any, has room for two
more events — the regime in which every emit completes — add_server
behaves as specified: on success it emits exactly one ServerRegistered
and no ServerDeregistered, adds the new server to the live registry,
and returns it; on start failure it emits exactly one ServerRegistered
followed by exactly one ServerDeregistered, leaves the registry
unchanged so the server is not in it, makes no retry (no further
emission appears), and re-raises the original start error unchanged.
Without the room proviso the rollback emit itself raises WouldBlock,
which replaces the original error and loses the ServerDeregistered
event — see the counterexample. -/
theorem add_server_events_spec (st : SState) (host : String) (port : Nat)
    (scanArg : Option Int)
    (hroom : qroom st 2 = true)
    (hfresh : (⟨host, port, st.next_inst⟩ : Server) ∉ st.servers) :
    (∀ (e : OwErr) (scanR : Option OwErr),
      (add_server st host port scanArg (some e) scanR).2 = Except.error e
      ∧ (add_server st host port scanArg (some e) scanR).1.trace
          = st.trace ++ [Event.ServerRegistered ⟨host, port, st.next_inst⟩,
                         Event.ServerDeregistered ⟨host, port, st.next_inst⟩]
      ∧ (add_server st host port scanArg (some e) scanR).1.servers = st.servers
      ∧ (⟨host, port, st.next_inst⟩ : Server)
          ∉ (add_server st host port scanArg (some e) scanR).1.servers)
    ∧ ((add_server st host port scanArg none none).2
          = Except.ok ⟨host, port, st.next_inst⟩
      ∧ (add_server st host port scanArg none none).1.trace
          = st.trace ++ [Event.ServerRegistered ⟨host, port, st.next_inst⟩]
      ∧ (add_server st host port scanArg none none).1.servers
          = ⟨host, port, st.next_inst⟩ :: st.servers) := by
  have hroom0 : qroom ({ st with next_inst := st.next_inst + 1 } : SState) 2
      = true := hroom
  have h1 := push_event_ok_of_room { st with next_inst := st.next_inst + 1 }
    (Event.ServerRegistered ⟨host, port, st.next_inst⟩)
    (qroom_mono _ 1 2 (by omega) hroom0)
  have h2room := qroom_push { st with next_inst := st.next_inst + 1 }
    (Event.ServerRegistered ⟨host, port, st.next_inst⟩) 1 hroom0
  have h2 := push_event_ok_of_room
    (push_event { st with next_inst := st.next_inst + 1 }
      (Event.ServerRegistered ⟨host, port, st.next_inst⟩)).1
    (Event.ServerDeregistered ⟨host, port, st.next_inst⟩) h2room
  have hf1 := push_event_frame { st with next_inst := st.next_inst + 1 }
    (Event.ServerRegistered ⟨host, port, st.next_inst⟩)
  have hf2 := push_event_frame
    (push_event { st with next_inst := st.next_inst + 1 }
      (Event.ServerRegistered ⟨host, port, st.next_inst⟩)).1
    (Event.ServerDeregistered ⟨host, port, st.next_inst⟩)
  constructor
  · intro e scanR
    refine ⟨?_, ?_, ?_, ?_⟩ <;> simp only [add_server, h1.1, h2.1]
    · rw [h2.2, h1.2]
      simp [List.append_assoc]
    · rw [hf2.2.2.2.1, hf1.2.2.2.1]
    · rw [hf2.2.2.2.1, hf1.2.2.2.1]
      exact hfresh
  · refine ⟨?_, ?_, ?_⟩ <;> simp only [add_server, h1.1]
    · rw [h1.2]
    · rw [hf1.2.2.2.1]
      unfold setInsert
      rw [if_neg hfresh]

/-- C1 witness: the bundle at the initial state (bus unarmed): a start
failure yields the Registered and Deregistered pair and re-raises the
original error; a successful start puts the server in the registry. -/
theorem add_server_events_spec_witness :
    (add_server (init none true) ("h") 4304 none (some (OwErr.external 3)) none).2
      = Except.error (OwErr.external 3)
    ∧ (add_server (init none true) ("h") 4304 none none none).1.servers
      = [(⟨"h", 4304, 0⟩ : Server)] :=
  ⟨((add_server_events_spec (init none true) "h" 4304 none rfl
      (by decide)).1 (OwErr.external 3) none).1,
   (add_server_events_spec (init none true) "h" 4304 none rfl
      (by decide)).2.2.2⟩

/-- C1 counterexample: at a concrete state whose armed queue has room
for one event only (999 of 1000 slots used), a failing start makes the
rollback emit raise WouldBlock: the caller receives WouldBlock instead
of the original start error, and only the ServerRegistered event is
emitted — the claimed Registered-then-Deregistered pair and unchanged
re-raise both fail. -/
theorem add_server_rollback_full_bus :
    (add_server st999 ("h") 4304 none (some (OwErr.external 7)) none).2
      = Except.error OwErr.wouldBlock
    ∧ (add_server st999 ("h") 4304 none (some (OwErr.external 7)) none).1.trace
      = [Event.ServerRegistered ⟨"h", 4304, 0⟩] :=
  ⟨rfl, rfl⟩

/-- C2 (amended): get_device never hands out two different instances
for one id — once a call returns a device for id k, every later call
during the orchestrator run returns that same instance — and over any
run from the initial state at most one DeviceAdded event is ever
emitted per id; a lookup of a registered id always succeeds, and a
creating call succeeds whenever the bus is unarmed or the armed queue
is not full, but a creating call with the armed queue full raises
WouldBlock (the claimed unconditional totality fails — see the
counterexample). -/
theorem get_device_spec :
    (∀ (scanCfg : Option Int) (ls : Bool) (ops : List Op) (k : Nat),
      addedCount k (run (init scanCfg ls) ops).trace ≤ 1)
    ∧ (∀ (st : SState) (k : Nat) (d : Device) (ops : List Op),
      (get_device st k).2 = Except.ok d →
      (get_device (run (get_device st k).1 ops) k).2 = Except.ok d)
    ∧ (∀ (st : SState) (k : Nat),
      qroom st 1 = true → ∃ d : Device, (get_device st k).2 = Except.ok d) := by
  refine ⟨?_, ?_, ?_⟩
  · intro scanCfg ls ops k
    have hinit : devInv k (init scanCfg ls) := by
      simp [devInv, addedCount, lookupDev, init]
    have h := devInv_run k ops (init scanCfg ls) hinit
    unfold devInv at h
    split at h
    · omega
    · omega
  · intro st k d ops h
    have hlook := get_device_ok_lookup st k d h
    have hrun := run_lookup_mono ops (get_device st k).1 k d hlook
    rw [get_device_hit (run (get_device st k).1 ops) k d hrun]
  · intro st k hq
    rcases hl : lookupDev k st.devices with _ | d
    · have hq1 : qroom (devStep st k) 1 = true := hq
      have hp := push_event_ok_of_room (devStep st k)
        (Event.DeviceAdded ⟨k, st.next_inst⟩) hq1
      refine ⟨⟨k, st.next_inst⟩, ?_⟩
      simp only [get_device, hl, hp.1]
    · refine ⟨d, ?_⟩
      rw [get_device_hit st k d hl]

/-- C2 witness: the bundle at concrete inputs — over a run that looks
device 5 up twice the DeviceAdded count for id 5 stays at most one, a
later call returns the instance created by the first call, and a
creating call at the initial state succeeds. -/
theorem get_device_spec_witness :
    addedCount 5 (run (init none true) [Op.getDevice 5, Op.getDevice 5]).trace ≤ 1
    ∧ (get_device (run (get_device (init none true) 5).1 [Op.addTask]) 5).2
        = Except.ok ⟨5, 0⟩
    ∧ ∃ d : Device, (get_device (init none true) 5).2 = Except.ok d :=
  ⟨get_device_spec.1 none true [Op.getDevice 5, Op.getDevice 5] 5,
   get_device_spec.2.1 (init none true) 5 ⟨5, 0⟩ [Op.addTask] rfl,
   get_device_spec.2.2 (init none true) 5 rfl⟩

/-- C2 counterexample: get_device is not total as claimed — at a
concrete state whose armed queue is full (reachable by arming the bus
and creating 1000 devices while the consumer makes no progress),
creating one more device makes the DeviceAdded push raise WouldBlock,
so the call fails instead of returning the fresh device. -/
theorem get_device_full_bus_fails :
    (get_device stFull 7).2 = Except.error OwErr.wouldBlock := rfl

/-- C6: over any run of the orchestrator from its initial state the
supervisor set contains only scopes that add_task handed out (it stays
within the ghost spawned set and holds no duplicates); when a
supervised task body finishes with any outcome — normal return, error,
or delivered cancellation — the wrapper removes its own scope from the
set, the outcome is reported unchanged, and the scope is no longer in
the set at that report; and the removal is idempotent: removing an
absent scope is silently ignored, leaving the state untouched. -/
theorem task_supervision_spec :
    (∀ (scanCfg : Option Int) (ls : Bool) (ops : List Op),
      (run (init scanCfg ls) ops).tasks ⊆ (run (init scanCfg ls) ops).spawned
      ∧ (run (init scanCfg ls) ops).tasks.Nodup)
    ∧ (∀ (st : SState) (scope : Nat) (r : Option OwErr),
      st.tasks.Nodup →
      scope ∉ (task_finish st scope r).1.tasks
      ∧ (task_finish st scope r).2 = r)
    ∧ (∀ (st : SState) (scope : Nat),
      scope ∉ st.tasks → task_cleanup st scope = st) := by
  refine ⟨?_, ?_, ?_⟩
  · intro scanCfg ls ops
    exact supInv_run ops (init scanCfg ls)
      ⟨fun x hx => absurd hx (List.not_mem_nil x), List.nodup_nil⟩
  · intro st scope r hnd
    exact ⟨hnd.not_mem_erase, rfl⟩
  · intro st scope h
    unfold task_cleanup
    rw [List.erase_of_not_mem h]

/-- C6 witness: the supervision bundle at concrete inputs — after one
add_task the supervisor set is inside the spawned set, the cleanup of a cancelled
task leaves its scope out of the set, and removing an absent
scope from the initial state changes nothing. -/
theorem task_supervision_spec_witness :
    (run (init none true) [Op.addTask]).tasks
        ⊆ (run (init none true) [Op.addTask]).spawned
    ∧ 0 ∉ (task_finish (run (init none true) [Op.addTask]) 0
        (some OwErr.cancelled)).1.tasks
    ∧ task_cleanup (init none true) 5 = init none true :=
  ⟨(task_supervision_spec.1 none true [Op.addTask]).1,
   (task_supervision_spec.2.1 (run (init none true) [Op.addTask]) 0
      (some OwErr.cancelled)
      (task_supervision_spec.1 none true [Op.addTask]).2).1,
   task_supervision_spec.2.2 (init none true) 5 (by decide)⟩

end Owfs
